import Mathlib

/-!
Verification of the ISS-Tracker service (`iss_tracker.py`) against its
specification.

The development shallowly embeds the program:

* Python floats (IEEE-754 binary64) are modelled exactly by dyadic rationals
  `m * 2^e` (`Dy`), with round-to-nearest-even (`roundD`), correctly rounded
  square root (`sqrtD`), and decimal-literal parsing (`floatOfDec`).
  Subnormal underflow is modelled via the -1022 exponent clamp; the finite
  range is assumed (no infinities/NaN arise in the verified claims).
* The `xmltodict` document is modelled by the dynamic value type `XVal`
  (text, dict, repeated-element list); Python `d[k]`, `for t in v`, and
  `float(v)` are modelled by `getKey`, `pyIter`, `pyFloat`.  A raised
  exception is modelled by `Option`/`Except` failure.
* `datetime` instants are integers (microseconds); `timedelta` comparison
  constants are translated exactly.
* Network I/O (`requests`, `geopy`, `astropy`) is abstracted as function
  parameters; everything downstream of it is embedded from the source.
-/

set_option maxRecDepth 40000

/-! ## Exact binary64 model over dyadic rationals -/

/-- A dyadic rational `m * 2^e`: the exact value of any finite binary64
float.  The representation is not unique; the rounding functions below
return a canonical mantissa form. -/
structure Dy where
  m : ℤ
  e : ℤ
deriving DecidableEq

/-- `2^k` as an integer. -/
def pow2 (k : ℕ) : ℤ := ((2 ^ k : ℕ) : ℤ)

def blenA : ℕ → ℕ → ℕ
  | 0, _ => 0
  | fuel+1, a => if a = 0 then 0 else blenA fuel (a / 2) + 1

/-- Bit length: number of binary digits of `a` (0 for 0). -/
def blen (a : ℕ) : ℕ := blenA a a

/-- Round `a / 2^k` to the nearest natural number, ties to even. -/
def rshiftHE (a k : ℕ) : ℕ :=
  if k = 0 then a
  else
    let q := a / 2 ^ k
    let r := a % 2 ^ k
    let h := 2 ^ (k - 1)
    if r < h then q
    else if h < r then q + 1
    else if q % 2 = 0 then q else q + 1

/-- Round `A / B` to the nearest natural number, ties to even. -/
def rdivHE (A B : ℕ) : ℕ :=
  let q := A / B
  let r := A % B
  if 2 * r < B then q
  else if B < 2 * r then q + 1
  else if q % 2 = 0 then q else q + 1

/-- binary64 round-to-nearest-even of the dyadic value `x.m * 2^x.e`.
The unbiased exponent is clamped at -1022, which yields the graded
subnormal precision down to `2^-1074`; values rounding to zero return the
canonical zero. -/
def roundD (x : Dy) : Dy :=
  if x.m = 0 then ⟨0, 0⟩
  else
    let s : ℤ := if x.m < 0 then -1 else 1
    let a : ℕ := x.m.natAbs
    let l : ℤ := x.e + blen a - 1
    let er : ℤ := max l (-1022)
    let t : ℤ := x.e + 52 - er
    let mm : ℕ := if 0 ≤ t then a * 2 ^ t.toNat else rshiftHE a (-t).toNat
    if mm = 0 then ⟨0, 0⟩ else ⟨s * (mm : ℤ), er - 52⟩

def isqrtGo (N : ℕ) : ℕ → ℕ → ℕ
  | 0, x => x
  | fuel+1, x =>
    let y := (x + N / x) / 2
    if y < x then isqrtGo N fuel y else x

/-- Integer square root (floor): Newton iteration descending from `N/2`. -/
def isqrt (N : ℕ) : ℕ := if N ≤ 1 then N else isqrtGo N N (N / 2)

/-- Nearest natural number (ties to even) to `sqrt P / Q`. -/
def rsqrtHE (P Q : ℕ) : ℕ :=
  let k := isqrt P / Q
  let c := Q * Q * ((2 * k + 1) * (2 * k + 1))
  if c < 4 * P then k + 1
  else if 4 * P < c then k
  else if k % 2 = 0 then k else k + 1

/-- binary64 correctly rounded square root of a dyadic value (`math.sqrt`);
nonpositive arguments return 0 (only `0.0` reaches it in this program, a
sum of squares being nonnegative). -/
def sqrtD (x : Dy) : Dy :=
  if x.m ≤ 0 then ⟨0, 0⟩
  else
    let a : ℕ := x.m.natAbs
    let l : ℤ := x.e + blen a - 1
    let e : ℤ := max (Int.fdiv l 2) (-1022)
    let t : ℤ := x.e + 2 * (52 - e)
    let m : ℕ :=
      if 0 ≤ t then rsqrtHE (a * 2 ^ t.toNat) 1
      else rsqrtHE (a * 2 ^ (-t).toNat) (2 ^ (-t).toNat)
    ⟨(m : ℤ), e - 52⟩

/-- Exact product of dyadic values. -/
def dyMul (x y : Dy) : Dy := ⟨x.m * y.m, x.e + y.e⟩

/-- Exact sum of dyadic values (aligned to the smaller exponent). -/
def dyAdd (x y : Dy) : Dy :=
  if x.e ≤ y.e then ⟨x.m + y.m * pow2 (y.e - x.e).toNat, x.e⟩
  else ⟨x.m * pow2 (x.e - y.e).toNat + y.m, y.e⟩

/-- IEEE negation `-x`: exact sign flip. -/
def dyNeg (x : Dy) : Dy := ⟨-x.m, x.e⟩

/-- Python `x ** 2` on floats: the correctly rounded square. -/
def fsq (x : Dy) : Dy := roundD (dyMul x x)

/-- Python `x + y` on floats: the correctly rounded sum. -/
def fadd (x y : Dy) : Dy := roundD (dyAdd x y)

/-- `calculate_speed(x_dot, y_dot, z_dot)`:
`math.sqrt(x_dot**2 + y_dot**2 + z_dot**2)` in binary64 arithmetic
(the Python `+` chain associates to the left). -/
def calculate_speed (x_dot y_dot z_dot : Dy) : Dy :=
  sqrtD (fadd (fadd (fsq x_dot) (fsq y_dot)) (fsq z_dot))

/-- Value of the decimal literal `n / 10^k` rounded to binary64: the float
denoted by a decimal source literal such as `3.7416573867739413`. -/
def floatOfDec (n k : ℕ) : Dy :=
  if n = 0 then ⟨0, 0⟩
  else
    let d : ℕ := 10 ^ k
    let g : ℤ := (blen n : ℤ) - (blen d : ℤ)
    let l : ℤ :=
      if 0 ≤ g + 1 ∧ d * 2 ^ (g + 1).toNat ≤ n then g + 1
      else if (0 ≤ g ∧ d * 2 ^ g.toNat ≤ n) ∨ (g < 0 ∧ d ≤ n * 2 ^ (-g).toNat) then g
      else g - 1
    let er : ℤ := max l (-1022)
    let t : ℤ := 52 - er
    let m : ℕ := if 0 ≤ t then rdivHE (n * 2 ^ t.toNat) d else rdivHE n (d * 2 ^ (-t).toNat)
    ⟨(m : ℤ), er - 52⟩

/-! ## The xmltodict document model and `parse_xml_data` -/

/-- A value in the `xmltodict` output: element text, an element dict, or a
list of repeated sibling elements. -/
inductive XVal where
  | str : String → XVal
  | dict : List (String × XVal) → XVal
  | list : List XVal → XVal

def lookupKey : List (String × XVal) → String → Option XVal
  | [], _ => none
  | (k', v) :: rest, k => if k' == k then some v else lookupKey rest k

/-- Python `v[k]`: dict key lookup; a KeyError or TypeError (indexing a
string/list with a string) is modelled by `none`. -/
def getKey (v : XVal) (k : String) : Option XVal :=
  match v with
  | .dict kvs => lookupKey kvs k
  | _ => none

/-- Python `for t in v`: a list yields its elements, a dict yields its keys
(insertion order), a string yields its characters. -/
def pyIter : XVal → List XVal
  | .list xs => xs
  | .dict kvs => kvs.map (fun kv => XVal.str kv.1)
  | .str s => s.toList.map (fun c => XVal.str (String.singleton c))

/-- One parsed state-vector record, as built by `parse_xml_data`:
`EPOCH` is stored as read from the document (a string in a well-formed
feed), the six numeric fields are converted to 64-bit floats. -/
structure StateVector where
  EPOCH : XVal
  X : Dy
  Y : Dy
  Z : Dy
  X_DOT : Dy
  Y_DOT : Dy
  Z_DOT : Dy

/-- Python `float(v)` on an `xmltodict` value: text parses via the abstract
float-literal reader `conv` (a `ValueError` on malformed text is `none`);
`float` of a dict or list raises `TypeError` (`none`). -/
def pyFloat (conv : String → Option Dy) : XVal → Option Dy
  | .str s => conv s
  | _ => none

/-- `float(t[k]["#text"])` for one numeric field of a stateVector entry. -/
def fieldFloat (conv : String → Option Dy) (t : XVal) (k : String) : Option Dy :=
  ((getKey t k).bind (fun v => getKey v "#text")).bind (pyFloat conv)

/-- The loop body of `parse_xml_data`: build the dictionary for one
stateVector entry; any failed lookup or conversion aborts the call. -/
def parseEntry (conv : String → Option Dy) (t : XVal) : Option StateVector := do
  let e ← getKey t "EPOCH"
  let x ← fieldFloat conv t "X"
  let y ← fieldFloat conv t "Y"
  let z ← fieldFloat conv t "Z"
  let xd ← fieldFloat conv t "X_DOT"
  let yd ← fieldFloat conv t "Y_DOT"
  let zd ← fieldFloat conv t "Z_DOT"
  pure ⟨e, x, y, z, xd, yd, zd⟩

/-- The `for t in epochs` loop of `parse_xml_data`, appending records in
iteration order; an exception in any entry aborts the whole call with no
partial results. -/
def parseLoop (conv : String → Option Dy) : List XVal → Option (List StateVector)
  | [] => some []
  | t :: rest =>
    match parseEntry conv t with
    | none => none
    | some r =>
      match parseLoop conv rest with
      | none => none
      | some rs => some (r :: rs)

/-- `parse_xml_data`: navigate
`xml_dict["ndm"]["oem"]["body"]["segment"]["data"]["stateVector"]` and build
the list of records; `none` models the call raising. -/
def parse_xml_data (conv : String → Option Dy) (root : XVal) : Option (List StateVector) := do
  let a ← getKey root "ndm"
  let b ← getKey a "oem"
  let c ← getKey b "body"
  let d ← getKey c "segment"
  let e ← getKey d "data"
  let epochs ← getKey e "stateVector"
  parseLoop conv (pyIter epochs)

/-! ## Well-formed feed documents -/

/-- The text fields of one `<stateVector>` element of a feed. -/
structure RawSV where
  EPOCH : String
  X : String
  Y : String
  Z : String
  X_DOT : String
  Y_DOT : String
  Z_DOT : String

/-- `xmltodict`'s dict for one `<stateVector>` element: numeric fields carry
a units attribute, so each becomes `{"@units": …, "#text": …}`. -/
def rawToDict (sv : RawSV) : XVal :=
  .dict [("EPOCH", .str sv.EPOCH),
         ("X", .dict [("@units", .str "km"), ("#text", .str sv.X)]),
         ("Y", .dict [("@units", .str "km"), ("#text", .str sv.Y)]),
         ("Z", .dict [("@units", .str "km"), ("#text", .str sv.Z)]),
         ("X_DOT", .dict [("@units", .str "km/s"), ("#text", .str sv.X_DOT)]),
         ("Y_DOT", .dict [("@units", .str "km/s"), ("#text", .str sv.Y_DOT)]),
         ("Z_DOT", .dict [("@units", .str "km/s"), ("#text", .str sv.Z_DOT)])]

/-- `xmltodict`'s value for the `<data>` element: with no `<stateVector>`
child the key is absent, with exactly one child the element's dict itself is
stored, with several a list is stored. -/
def dataDict (svs : List RawSV) : XVal :=
  match svs with
  | [] => .dict []
  | [sv] => .dict [("stateVector", rawToDict sv)]
  | _ => .dict [("stateVector", .list (svs.map rawToDict))]

/-- A well-formed OEM feed document holding the given stateVector entries,
as `xmltodict` parses it. -/
def mkFeed (svs : List RawSV) : XVal :=
  .dict [("ndm", .dict [("oem", .dict [("body", .dict [("segment",
    .dict [("data", dataDict svs)])])])])]

/-- Specification-side record for one raw stateVector entry: `EPOCH` kept
as a string, each numeric field converted by `conv`, failing when any
conversion fails. -/
def specRecord (conv : String → Option Dy) (sv : RawSV) : Option StateVector := do
  let x ← conv sv.X
  let y ← conv sv.Y
  let z ← conv sv.Z
  let xd ← conv sv.X_DOT
  let yd ← conv sv.Y_DOT
  let zd ← conv sv.Z_DOT
  pure ⟨.str sv.EPOCH, x, y, z, xd, yd, zd⟩

/-- Specification-side parse: one record per raw entry, in feed order, with
no partial results on failure. -/
def specParse (conv : String → Option Dy) : List RawSV → Option (List StateVector)
  | [] => some []
  | sv :: rest =>
    match specRecord conv sv with
    | none => none
    | some r =>
      match specParse conv rest with
      | none => none
      | some rs => some (r :: rs)

/-! ## Route handlers over a parsed dataset -/

/-- Python list slice index clamping for `l[a:b]` with int bounds
(negative indices count from the end). -/
def pyClamp (n : ℕ) (i : ℤ) : ℕ :=
  if i < 0 then ((n : ℤ) + i).toNat else min i.toNat n

/-- Python `xs[a:b]` for integer bounds. -/
def pySlice {α : Type} (xs : List α) (a b : ℤ) : List α :=
  (xs.take (pyClamp xs.length b)).drop (pyClamp xs.length a)

/-- The `/epochs` handler after a successful fetch and parse: `limit`
defaults to `len(parsed_data)` and `offset` to 0; present parameters go
through `int()` (modelled by `parseInt`, failure = ValueError caught as the
500 branch); the full list is returned as-is when `limit == len and
offset == 0`, otherwise the `parsed_data[offset:offset+limit]` slice. -/
def get_epochs (parseInt : String → Option ℤ) (data : List StateVector)
    (limitArg offsetArg : Option String) : Except String (List StateVector) :=
  let lim : Option ℤ :=
    match limitArg with
    | none => some (data.length : ℤ)
    | some s => parseInt s
  let off : Option ℤ :=
    match offsetArg with
    | none => some 0
    | some s => parseInt s
  match lim, off with
  | some limit, some offset =>
    if limit = (data.length : ℤ) ∧ offset = 0 then .ok data
    else .ok (pySlice data offset (offset + limit))
  | _, _ => .error "Invalid paramters; limit and offset must be integers."

/-- Python `data["EPOCH"] == epoch`: equality of the stored EPOCH value with
a query string (`==` across types is False, never an error). -/
def epochMatches (epoch : String) (d : StateVector) : Bool :=
  match d.EPOCH with
  | .str s => s == epoch
  | _ => false

/-- The `/epochs/<epoch>` handler after parse: the first record whose EPOCH
equals the query string with status 200, else "Epoch not found." with 404. -/
def get_epoch (data : List StateVector) (epoch : String) :
    (StateVector ⊕ String) × ℕ :=
  match data.find? (epochMatches epoch) with
  | some d => (.inl d, 200)
  | none => (.inr "Epoch not found.", 404)

/-- The inline speed expression of the `/epochs/<epoch>/speed` handler:
`math.sqrt(data["X_DOT"]**2 + data["Y_DOT"]**2 + data["Z_DOT"]**2)`. -/
def inlineSpeed (x_dot y_dot z_dot : Dy) : Dy :=
  sqrtD (fadd (fadd (fsq x_dot) (fsq y_dot)) (fsq z_dot))

/-- The `/epochs/<epoch>/speed` handler after parse. -/
def get_epoch_speed (data : List StateVector) (epoch : String) :
    (Dy ⊕ String) × ℕ :=
  match data.find? (epochMatches epoch) with
  | some d => (.inl (inlineSpeed d.X_DOT d.Y_DOT d.Z_DOT), 200)
  | none => (.inr "Epoch not found.", 404)

/-! ## `calculate_location` -/

/-- Python exceptions that escape the modelled functions. -/
inductive PyExn where
  | typeError
  | valueError
deriving DecidableEq

/-- `calculate_location`: the EPOCH parse and the astropy
GCRS→ITRS→geodetic chain (lines 91–98) are abstracted as `transform`
(`none` models `strptime` raising ValueError on a malformed EPOCH); the
Nominatim lookup (line 102) is abstracted as `reverse`.  Line 105's
conditional expression supplies the literal sentinel when the lookup
returns no match. -/
def calculate_location (transform : StateVector → Option (Dy × Dy × Dy))
    (reverse : Dy → Dy → Option String) (data : StateVector) :
    Except PyExn (Dy × Dy × Dy × String) :=
  match transform data with
  | none => .error .valueError
  | some (lat, lon, alt) =>
    let location := reverse lat lon
    .ok (lat, lon, alt,
      match location with
      | some addr => addr
      | none => "Address not found")

/-! ## `get_current_info` (nearest-epoch selector) -/

/-- `timedelta(minutes=4, milliseconds=1)` in microseconds. -/
def tolUs : ℤ := 4 * 60 * 1000000 + 1000

/-- `timedelta.max` (999999999 days 23:59:59.999999) in microseconds. -/
def tdMaxUs : ℤ := 999999999 * 86400000000 + 86399999999

/-- Python `abs` on a timedelta (here: its microsecond count). -/
def pyAbs (x : ℤ) : ℤ := if x < 0 then -x else x

/-- `datetime.strptime(t["EPOCH"], "%Y-%jT%H:%M:%S.%fZ")` modelled with an
abstract instant parser `strp` (microseconds): a non-string EPOCH raises
TypeError, an unparsable string raises ValueError. -/
def epochInstant (strp : String → Option ℤ) (t : StateVector) : Except PyExn ℤ :=
  match t.EPOCH with
  | .str s =>
    match strp s with
    | some n => .ok n
    | none => .error .valueError
  | _ => .error .typeError

/-- The scan loop of `get_current_info`: `closest`/`min_diff` state, the
4-minute-1-millisecond early-exit `break`, and the signed `min_diff`
update guarded by `abs(diff) < min_diff`. -/
def scanClosest (strp : String → Option ℤ) (now : ℤ) :
    List StateVector → Option StateVector → ℤ → Except PyExn (Option StateVector)
  | [], closest, _ => .ok closest
  | t :: rest, closest, minDiff =>
    match epochInstant strp t with
    | .error ex => .error ex
    | .ok et =>
      let diff := now - et
      if diff < -tolUs then .ok closest
      else if pyAbs diff < minDiff then scanClosest strp now rest (some t) diff
      else scanClosest strp now rest closest minDiff

/-- `get_current_info`: scan for the record closest to `now`, then compute
its speed.  When the loop ends with `closest = None`, the subscript
`closest["X_DOT"]` raises TypeError. -/
def get_current_info (strp : String → Option ℤ) (now : ℤ)
    (data : List StateVector) : Except PyExn (StateVector × Dy) :=
  match scanClosest strp now data none tdMaxUs with
  | .error ex => .error ex
  | .ok none => .error .typeError
  | .ok (some c) => .ok (c, calculate_speed c.X_DOT c.Y_DOT c.Z_DOT)

/-- The pure scan loop on records paired with their already-parsed
instants; `scanClosest` coincides with it when every EPOCH parses. -/
def scanClosestP (now : ℤ) :
    List (StateVector × ℤ) → Option StateVector → ℤ → Option StateVector
  | [], closest, _ => closest
  | (t, et) :: rest, closest, minDiff =>
    let diff := now - et
    if diff < -tolUs then closest
    else if pyAbs diff < minDiff then scanClosestP now rest (some t) diff
    else scanClosestP now rest closest minDiff

/-- Specification-side full scan: keep the record minimizing
`|now - epoch|`, the earliest on ties, over the whole sequence. -/
def nearestScan (now : ℤ) :
    List (StateVector × ℤ) → Option (StateVector × ℤ) → Option (StateVector × ℤ)
  | [], best => best
  | (d, t) :: rest, best =>
    match best with
    | none => nearestScan now rest (some (d, t))
    | some (b, tb) =>
      if pyAbs (now - t) < pyAbs (now - tb) then nearestScan now rest (some (d, t))
      else nearestScan now rest (some (b, tb))

/-! ## Concrete instruments for witnesses (test-fixture data) -/

/-- A concrete float-literal reader covering the test fixture's values. -/
def conv0 : String → Option Dy := fun s =>
  if s == "100.0" then some ⟨100, 0⟩
  else if s == "200.0" then some ⟨200, 0⟩
  else if s == "300.0" then some ⟨300, 0⟩
  else if s == "1.0" then some ⟨1, 0⟩
  else if s == "2.0" then some ⟨2, 0⟩
  else if s == "3.0" then some ⟨3, 0⟩
  else if s == "150.0" then some ⟨150, 0⟩
  else if s == "250.0" then some ⟨250, 0⟩
  else if s == "350.0" then some ⟨350, 0⟩
  else if s == "1.5" then some ⟨3, -1⟩
  else if s == "2.5" then some ⟨5, -1⟩
  else if s == "3.5" then some ⟨7, -1⟩
  else none

/-- First stateVector of the test fixture. -/
def svA : RawSV :=
  ⟨"2024-045T12:04:00.000Z", "100.0", "200.0", "300.0", "1.0", "2.0", "3.0"⟩

/-- Second stateVector of the test fixture. -/
def svB : RawSV :=
  ⟨"2024-045T12:05:00.000Z", "150.0", "250.0", "350.0", "1.5", "2.5", "3.5"⟩

/-- The record parsed from `svA`. -/
def recA : StateVector :=
  ⟨.str "2024-045T12:04:00.000Z", ⟨100, 0⟩, ⟨200, 0⟩, ⟨300, 0⟩, ⟨1, 0⟩, ⟨2, 0⟩, ⟨3, 0⟩⟩

/-- The record parsed from `svB`. -/
def recB : StateVector :=
  ⟨.str "2024-045T12:05:00.000Z", ⟨150, 0⟩, ⟨250, 0⟩, ⟨350, 0⟩, ⟨3, -1⟩, ⟨5, -1⟩, ⟨7, -1⟩⟩

/-- A five-record dataset for the `/epochs` slicing witness. -/
def data5 : List StateVector :=
  [⟨.str "E1", ⟨1, 0⟩, ⟨1, 0⟩, ⟨1, 0⟩, ⟨1, 0⟩, ⟨1, 0⟩, ⟨1, 0⟩⟩,
   ⟨.str "E2", ⟨2, 0⟩, ⟨2, 0⟩, ⟨2, 0⟩, ⟨2, 0⟩, ⟨2, 0⟩, ⟨2, 0⟩⟩,
   ⟨.str "E3", ⟨3, 0⟩, ⟨3, 0⟩, ⟨3, 0⟩, ⟨3, 0⟩, ⟨3, 0⟩, ⟨3, 0⟩⟩,
   ⟨.str "E4", ⟨4, 0⟩, ⟨4, 0⟩, ⟨4, 0⟩, ⟨4, 0⟩, ⟨4, 0⟩, ⟨4, 0⟩⟩,
   ⟨.str "E5", ⟨5, 0⟩, ⟨5, 0⟩, ⟨5, 0⟩, ⟨5, 0⟩, ⟨5, 0⟩, ⟨5, 0⟩⟩]

/-- A concrete `int()` reader for the query-parameter witness. -/
def parseInt0 : String → Option ℤ := fun s =>
  if s == "5" then some 5 else if s == "0" then some 0 else none

/-- A concrete geodetic transform for the `calculate_location` witness. -/
def transform0 : StateVector → Option (Dy × Dy × Dy) :=
  fun _ => some (⟨1, 0⟩, ⟨2, 0⟩, ⟨3, 0⟩)

/-- A reverse-geocoder returning no match. -/
def reverse0 : Dy → Dy → Option String := fun _ _ => none

/-- A concrete EPOCH parser for the nearest-epoch witnesses. -/
def strp0 : String → Option ℤ := fun s =>
  if s == "E1" then some 0 else if s == "E2" then some 240000000 else none

/-- A record whose epoch (under `strp0`) lies 10 minutes after the
reference instant used in the early-exit counterexample. -/
def svF : StateVector := ⟨.str "E1", ⟨1, 0⟩, ⟨1, 0⟩, ⟨1, 0⟩, ⟨1, 0⟩, ⟨2, 0⟩, ⟨3, 0⟩⟩

/-- A second record, 4 minutes after `svF`. -/
def svG : StateVector := ⟨.str "E2", ⟨1, 0⟩, ⟨1, 0⟩, ⟨1, 0⟩, ⟨3, -1⟩, ⟨5, -1⟩, ⟨7, -1⟩⟩

/-! ## Lemmas and claim theorems -/

theorem parseEntry_rawToDict (conv : String → Option Dy) (sv : RawSV) :
    parseEntry conv (rawToDict sv) = specRecord conv sv := rfl

theorem parseLoop_map_rawToDict (conv : String → Option Dy) (l : List RawSV) :
    parseLoop conv (l.map rawToDict) = specParse conv l := by
  induction l with
  | nil => rfl
  | cons a l ih =>
    simp only [List.map_cons, parseLoop, parseEntry_rawToDict, specParse, ih]

theorem specParse_length (conv : String → Option Dy) :
    ∀ (l : List RawSV) (out : List StateVector),
      specParse conv l = some out → out.length = l.length := by
  intro l
  induction l with
  | nil => intro out h; cases h; rfl
  | cons a l ih =>
    intro out h
    unfold specParse at h
    cases ha : specRecord conv a with
    | none => rw [ha] at h; cases h
    | some r =>
      rw [ha] at h
      cases hl : specParse conv l with
      | none => rw [hl] at h; cases h
      | some rs =>
        rw [hl] at h
        cases h
        simp [ih rs hl]

/-- C1: the code does not normalize a single-sample feed.  With exactly one
stateVector element, `xmltodict` stores the element's dict itself, the
`for t in epochs` loop iterates over its keys (strings), and `t["EPOCH"]`
raises TypeError —`parse_xml_data` fails instead of returning a one-element
sequence. -/
theorem parse_single_stateVector_raises (conv : String → Option Dy) (sv : RawSV) :
    parse_xml_data conv (mkFeed [sv]) = none := rfl

/-- C6 (amended to feeds with at least two stateVector elements): for every
float reader and every such feed, `parse_xml_data` equals the
specification-side parse — one record per entry in feed order, EPOCH kept
as the entry's string, each numeric field converted, and a fatal failure
with no partial results when any conversion fails — and a successful parse
has exactly as many records as the feed has entries. -/
theorem parse_xml_data_spec (conv : String → Option Dy) (svs : List RawSV)
    (h2 : 2 ≤ svs.length) :
    parse_xml_data conv (mkFeed svs) = specParse conv svs ∧
    ∀ out, specParse conv svs = some out → out.length = svs.length := by
  obtain ⟨a, b, rest, rfl⟩ : ∃ a b rest, svs = a :: b :: rest := by
    match svs, h2 with
    | a :: b :: rest, _ => exact ⟨a, b, rest, rfl⟩
  refine ⟨?_, specParse_length conv _⟩
  have hnav : parse_xml_data conv (mkFeed (a :: b :: rest)) =
      parseLoop conv ((a :: b :: rest).map rawToDict) := rfl
  rw [hnav, parseLoop_map_rawToDict]

/-- C6 witness: the two-entry test fixture parses to its two records. -/
theorem parse_xml_data_spec_witness :
    2 ≤ ([svA, svB] : List RawSV).length ∧
    parse_xml_data conv0 (mkFeed [svA, svB]) = specParse conv0 [svA, svB] :=
  ⟨by decide, (parse_xml_data_spec conv0 [svA, svB] (by decide)).1⟩

/-- C6 counterexample: on a well-formed feed with N = 1 stateVector
element the parse fails, while the specification-side parse yields the
single record — so the claim does not hold for every well-formed feed. -/
theorem parse_one_element_counterexample :
    parse_xml_data conv0 (mkFeed [svA]) = none ∧
    specParse conv0 [svA] = some [recA] := ⟨rfl, rfl⟩

/-- C3: on an empty record sequence the scan never runs, `closest` stays
`None`, and `closest["X_DOT"]` raises an uncaught TypeError — the code
crashes instead of reporting a "no data" error. -/
theorem get_current_info_empty_raises (strp : String → Option ℤ) (now : ℤ) :
    get_current_info strp now [] = .error PyExn.typeError := rfl

/-- C4: whenever the geodetic transform succeeds and the reverse-geocoding
lookup yields no match, `calculate_location` returns normally with the
literal sentinel "Address not found" as the address component. -/
theorem calculate_location_sentinel (transform : StateVector → Option (Dy × Dy × Dy))
    (reverse : Dy → Dy → Option String) (data : StateVector) (lat lon alt : Dy)
    (ht : transform data = some (lat, lon, alt)) (hr : reverse lat lon = none) :
    calculate_location transform reverse data = .ok (lat, lon, alt, "Address not found") := by
  simp [calculate_location, ht, hr]

/-- C4 witness at a concrete record and no-match geocoder. -/
theorem calculate_location_sentinel_witness :
    calculate_location transform0 reverse0 recA =
      .ok (⟨1, 0⟩, ⟨2, 0⟩, ⟨3, 0⟩, "Address not found") :=
  calculate_location_sentinel transform0 reverse0 recA _ _ _ rfl rfl

set_option maxHeartbeats 1000000

/-- C5: `calculate_speed` is `math.sqrt(x**2 + y**2 + z**2)` in binary64
arithmetic (a total function on the model), and at velocity components
1.0, 2.0, 3.0 it returns exactly the float denoted by the decimal literal
`3.7416573867739413`. -/
theorem calculate_speed_spec :
    (∀ x y z : Dy, calculate_speed x y z = sqrtD (fadd (fadd (fsq x) (fsq y)) (fsq z))) ∧
    calculate_speed ⟨1, 0⟩ ⟨2, 0⟩ ⟨3, 0⟩ = floatOfDec 37416573867739413 16 :=
  ⟨fun _ _ _ => rfl, by decide⟩

/-- C7: `limit` and `offset` are optional — absent parameters default to
the full list and 0 — and on a dataset of at least 5 records the
`limit=5&offset=0` response is exactly the first 5 records. -/
theorem get_epochs_spec (parseInt : String → Option ℤ) (data : List StateVector)
    (h5 : 5 ≤ data.length) (hp5 : parseInt "5" = some 5) (hp0 : parseInt "0" = some 0) :
    get_epochs parseInt data none none = .ok data ∧
    get_epochs parseInt data (some "5") (some "0") = .ok (data.take 5) := by
  constructor
  · simp [get_epochs]
  · simp only [get_epochs, hp5, hp0]
    split_ifs with h
    · obtain ⟨h1, -⟩ := h
      have hlen : data.length = 5 := by exact_mod_cast h1.symm
      rw [show data.take 5 = data from by rw [← hlen, List.take_length]]
    · have hc0 : pyClamp data.length 0 = 0 := by simp [pyClamp]
      have hc5 : pyClamp data.length 5 = 5 := by
        simp [pyClamp]
        omega
      have h05 : (0 + 5 : ℤ) = 5 := by norm_num
      simp [pySlice, h05, hc0, hc5]

/-- C7 witness on a concrete five-record dataset. -/
theorem get_epochs_spec_witness :
    get_epochs parseInt0 data5 none none = .ok data5 ∧
    get_epochs parseInt0 data5 (some "5") (some "0") = .ok (data5.take 5) :=
  get_epochs_spec parseInt0 data5 (by decide) rfl rfl

theorem epochMatches_iff (epoch : String) (d : StateVector) :
    epochMatches epoch d = true ↔ d.EPOCH = XVal.str epoch := by
  cases h : d.EPOCH <;> simp [epochMatches, h]

/-- C8: the `/epochs/{epoch}` lookup returns 404 exactly when no record's
EPOCH equals the query string; when a match exists it returns a matching
record of the dataset with status 200 (the first such record). -/
theorem get_epoch_spec (data : List StateVector) (epoch : String) :
    ((get_epoch data epoch).2 = 404 ↔ ∀ d ∈ data, d.EPOCH ≠ XVal.str epoch) ∧
    (∀ _ : (∃ d ∈ data, d.EPOCH = XVal.str epoch),
      ∃ d ∈ data, d.EPOCH = XVal.str epoch ∧ get_epoch data epoch = (Sum.inl d, 200)) := by
  cases hf : data.find? (epochMatches epoch) with
  | none =>
    have hnone := List.find?_eq_none.mp hf
    constructor
    · constructor
      · intro _ d hd hEq
        exact hnone d hd ((epochMatches_iff epoch d).mpr hEq)
      · intro _
        simp [get_epoch, hf]
    · rintro ⟨d, hd, hEq⟩
      exact absurd ((epochMatches_iff epoch d).mpr hEq) (hnone d hd)
  | some d =>
    have hmem := List.mem_of_find?_eq_some hf
    have hmatch := (epochMatches_iff epoch d).mp (List.find?_some hf)
    constructor
    · constructor
      · intro h200
        simp [get_epoch, hf] at h200
      · intro hall
        exact absurd hmatch (hall d hmem)
    · intro _
      exact ⟨d, hmem, hmatch, by simp [get_epoch, hf]⟩

/-- C8 witness: a present epoch is found with status 200. -/
theorem get_epoch_spec_witness :
    ∃ d ∈ [recA], d.EPOCH = XVal.str "2024-045T12:04:00.000Z" ∧
      get_epoch [recA] "2024-045T12:04:00.000Z" = (Sum.inl d, 200) :=
  (get_epoch_spec [recA] "2024-045T12:04:00.000Z").2
    ⟨recA, List.mem_singleton.mpr rfl, rfl⟩

/-- C9 (amended): `calculate_speed` is invariant under flipping the sign of
any component, and all-zero components give speed 0; the converse of the
zero law fails in binary64 (see the underflow counterexample). -/
theorem calculate_speed_signs_zero :
    (∀ x y z : Dy,
      calculate_speed (dyNeg x) y z = calculate_speed x y z ∧
      calculate_speed x (dyNeg y) z = calculate_speed x y z ∧
      calculate_speed x y (dyNeg z) = calculate_speed x y z) ∧
    calculate_speed ⟨0, 0⟩ ⟨0, 0⟩ ⟨0, 0⟩ = ⟨0, 0⟩ := by
  have hsq : ∀ w : Dy, fsq (dyNeg w) = fsq w := fun w => by
    simp [fsq, dyNeg, dyMul, neg_mul_neg]
  exact ⟨fun x y z =>
    ⟨by simp [calculate_speed, hsq], by simp [calculate_speed, hsq],
     by simp [calculate_speed, hsq]⟩, by decide⟩

/-- C9 counterexample: a nonzero velocity component whose square
underflows: `calculate_speed(2**-600, 0.0, 0.0)` is exactly `0.0` although
the first component is nonzero — "zero iff all components zero" fails. -/
theorem calculate_speed_underflow_counterexample :
    calculate_speed ⟨1, -600⟩ ⟨0, 0⟩ ⟨0, 0⟩ = ⟨0, 0⟩ ∧ (⟨1, -600⟩ : Dy).m ≠ 0 :=
  ⟨by decide, by decide⟩

/-- C10: the inline speed expression of the `/epochs/{epoch}/speed` handler
is exactly `calculate_speed`, and the handler's 200-response carries
`calculate_speed` of the matched record's velocity components. -/
theorem speed_paths_agree :
    (∀ x y z : Dy, inlineSpeed x y z = calculate_speed x y z) ∧
    (∀ (data : List StateVector) (epoch : String) (d : StateVector),
      data.find? (epochMatches epoch) = some d →
      get_epoch_speed data epoch = (Sum.inl (calculate_speed d.X_DOT d.Y_DOT d.Z_DOT), 200)) := by
  refine ⟨fun _ _ _ => rfl, fun data epoch d h => ?_⟩
  simp [get_epoch_speed, h, inlineSpeed, calculate_speed]

/-- C10 witness at a concrete dataset and epoch. -/
theorem speed_paths_agree_witness :
    get_epoch_speed [recA] "2024-045T12:04:00.000Z" =
      (Sum.inl (calculate_speed ⟨1, 0⟩ ⟨2, 0⟩ ⟨3, 0⟩), 200) :=
  speed_paths_agree.2 [recA] "2024-045T12:04:00.000Z" recA rfl

theorem scanClosest_eq_pure (strp : String → Option ℤ) (now : ℤ) :
    ∀ (data : List StateVector) (ts : List ℤ) (acc : Option StateVector) (md : ℤ),
      data.map (epochInstant strp) = ts.map Except.ok →
      scanClosest strp now data acc md = .ok (scanClosestP now (data.zip ts) acc md) := by
  intro data
  induction data with
  | nil =>
    intro ts acc md h
    cases ts with
    | nil => rfl
    | cons t ts => simp at h
  | cons d rest ih =>
    intro ts acc md h
    cases ts with
    | nil => simp at h
    | cons t ts =>
      simp only [List.map_cons, List.cons.injEq] at h
      obtain ⟨h1, h2⟩ := h
      simp only [scanClosest, h1, List.zip_cons_cons, scanClosestP]
      split_ifs
      · rfl
      · exact ih ts (some d) (now - t) h2
      · exact ih ts acc md h2

theorem chain_le_of_mem {a : ℤ} :
    ∀ {l : List ℤ}, List.Chain' (· ≤ ·) (a :: l) → ∀ b ∈ l, a ≤ b := by
  intro l
  induction l generalizing a with
  | nil => intro _ b hb; cases hb
  | cons c rest ih =>
    intro h b hb
    rw [List.chain'_cons] at h
    obtain ⟨hac, hc⟩ := h
    rcases List.mem_cons.mp hb with rfl | hb'
    · exact hac
    · exact le_trans hac (ih hc b hb')

theorem nearestScan_keep (now : ℤ) :
    ∀ (l : List (StateVector × ℤ)) (b : StateVector) (tb : ℤ),
      (∀ p ∈ l, ¬ pyAbs (now - p.2) < pyAbs (now - tb)) →
      nearestScan now l (some (b, tb)) = some (b, tb) := by
  intro l
  induction l with
  | nil => intro b tb _; rfl
  | cons p rest ih =>
    intro b tb h
    obtain ⟨d, t⟩ := p
    simp only [nearestScan]
    rw [if_neg (h (d, t) (List.mem_cons_self _ _))]
    exact ih b tb fun q hq => h q (List.mem_cons_of_mem _ hq)

theorem nearestScan_isSome (now : ℤ) :
    ∀ (l : List (StateVector × ℤ)) (p : StateVector × ℤ),
      ∃ q, nearestScan now l (some p) = some q := by
  intro l
  induction l with
  | nil => intro p; exact ⟨p, rfl⟩
  | cons a rest ih =>
    intro p
    obtain ⟨d, t⟩ := a
    obtain ⟨b, tb⟩ := p
    simp only [nearestScan]
    split_ifs
    · exact ih (d, t)
    · exact ih (b, tb)

theorem zip_map_snd :
    ∀ (rest : List StateVector) (ts : List ℤ), rest.length = ts.length →
      (rest.zip ts).map Prod.snd = ts := by
  intro rest
  induction rest with
  | nil =>
    intro ts h
    cases ts with
    | nil => rfl
    | cons t ts => cases h
  | cons d rest ih =>
    intro ts h
    cases ts with
    | nil => cases h
    | cons t ts =>
      simp only [List.zip_cons_cons, List.map_cons]
      rw [ih ts (by simpa using h)]

theorem scanClosestP_eq_nearest (now : ℤ) :
    ∀ (l : List (StateVector × ℤ)) (b : StateVector) (tb tprev : ℤ),
      List.Chain' (· ≤ ·) (tprev :: l.map Prod.snd) →
      List.Chain' (fun a c => c - a ≤ tolUs) (tprev :: l.map Prod.snd) →
      -tolUs ≤ now - tprev →
      tb ≤ tprev →
      pyAbs (now - tb) ≤ pyAbs (now - tprev) →
      scanClosestP now l (some b) (now - tb) =
        (nearestScan now l (some (b, tb))).map Prod.fst := by
  intro l
  induction l with
  | nil => intro b tb tprev _ _ _ _ _; rfl
  | cons p rest ih =>
    intro b tb tprev hsort hgap hprev htb habs
    obtain ⟨d, t⟩ := p
    rw [List.map_cons] at hsort hgap
    have hs1 : tprev ≤ t := (List.chain'_cons.mp hsort).1
    have hsort' : List.Chain' (· ≤ ·) (t :: rest.map Prod.snd) :=
      (List.chain'_cons.mp hsort).2
    have hg1 : t - tprev ≤ tolUs := (List.chain'_cons.mp hgap).1
    have hgap' : List.Chain' (fun a c => c - a ≤ tolUs) (t :: rest.map Prod.snd) :=
      (List.chain'_cons.mp hgap).2
    simp only [scanClosestP]
    by_cases hbr : now - t < -tolUs
    · rw [if_pos hbr]
      have hprevneg : now - tprev < 0 := by omega
      have habs_tol : pyAbs (now - tb) ≤ tolUs := by
        simp only [pyAbs] at habs ⊢
        split_ifs at habs ⊢ <;> omega
      have hkeep : ∀ p ∈ (d, t) :: rest, ¬ pyAbs (now - p.2) < pyAbs (now - tb) := by
        intro q hq
        rcases List.mem_cons.mp hq with rfl | hq'
        · simp only [pyAbs] at habs_tol ⊢
          split_ifs at habs_tol ⊢ <;> omega
        · have htq : t ≤ q.2 := chain_le_of_mem hsort' q.2 (List.mem_map_of_mem Prod.snd hq')
          simp only [pyAbs] at habs_tol ⊢
          split_ifs at habs_tol ⊢ <;> omega
      rw [nearestScan_keep now _ b tb hkeep]
      rfl
    · rw [if_neg hbr]
      by_cases hup : pyAbs (now - t) < now - tb
      · rw [if_pos hup]
        have hspec : pyAbs (now - t) < pyAbs (now - tb) := by
          simp only [pyAbs] at hup ⊢
          split_ifs at hup ⊢ <;> omega
        have hstep : nearestScan now ((d, t) :: rest) (some (b, tb)) =
            nearestScan now rest (some (d, t)) := by
          simp only [nearestScan]
          rw [if_pos hspec]
        rw [hstep]
        exact ih d t t hsort' hgap' (by omega) le_rfl le_rfl
      · rw [if_neg hup]
        have hspec : ¬ pyAbs (now - t) < pyAbs (now - tb) := by
          simp only [pyAbs] at hup ⊢
          split_ifs at hup ⊢ <;> omega
        have hstep : nearestScan now ((d, t) :: rest) (some (b, tb)) =
            nearestScan now rest (some (b, tb)) := by
          simp only [nearestScan]
          rw [if_neg hspec]
        rw [hstep]
        refine ih b tb t hsort' hgap' (by omega) (le_trans htb hs1) ?_
        simp only [pyAbs] at hspec ⊢
        split_ifs at hspec ⊢ <;> omega

/-- C2 (amended): the early-exit scan of `get_current_info` agrees with a
full scan taking the true minimum of `|now - epoch|` — returning that
record together with its `calculate_speed` — for every nonempty sequence
whose epochs parse, are in ascending order, are sampled at intervals of at
most the 4-minute-1-millisecond tolerance (the spec's own sampling
assumption), and whose first epoch is no more than that tolerance in the
future of `now` (and within `timedelta.max` in its past).  Without the
first-epoch condition the loop can terminate with `closest = None` and
crash (see the counterexample). -/
theorem get_current_info_eq_full_scan (strp : String → Option ℤ) (now : ℤ)
    (data : List StateVector) (ts : List ℤ) (t0 : ℤ)
    (hmap : data.map (epochInstant strp) = ts.map Except.ok)
    (hsort : List.Chain' (· ≤ ·) ts)
    (hgap : List.Chain' (fun a c => c - a ≤ tolUs) ts)
    (h0 : ts.head? = some t0)
    (hlo : -tolUs ≤ now - t0) (hhi : now - t0 < tdMaxUs) :
    ∃ c tc, nearestScan now (data.zip ts) none = some (c, tc) ∧
      get_current_info strp now data = .ok (c, calculate_speed c.X_DOT c.Y_DOT c.Z_DOT) := by
  cases data with
  | nil =>
    cases ts with
    | nil => cases h0
    | cons t ts' => simp at hmap
  | cons d rest =>
    cases ts with
    | nil => simp at hmap
    | cons t1 ts' =>
      have ht0 : t1 = t0 := by simpa using h0
      subst ht0
      simp only [List.map_cons, List.cons.injEq] at hmap
      obtain ⟨h1, h2⟩ := hmap
      have hlen : rest.length = ts'.length := by
        have := congrArg List.length h2
        simpa using this
      have hzip : (rest.zip ts').map Prod.snd = ts' := zip_map_snd rest ts' hlen
      rw [List.chain'_cons'] at hsort hgap
      have hsort2 : List.Chain' (· ≤ ·) (t1 :: (rest.zip ts').map Prod.snd) := by
        rw [hzip]; exact List.chain'_cons'.mpr hsort
      have hgap2 : List.Chain' (fun a c => c - a ≤ tolUs) (t1 :: (rest.zip ts').map Prod.snd) := by
        rw [hzip]; exact List.chain'_cons'.mpr hgap
      have htol : tolUs = 240001000 := rfl
      have htdm : tdMaxUs = 86399999999999999999 := rfl
      have hnb : ¬ (now - t1 < -tolUs) := by omega
      have habs1 : pyAbs (now - t1) < tdMaxUs := by
        simp only [pyAbs]
        split_ifs <;> omega
      have hbridge := scanClosest_eq_pure strp now (d :: rest) (t1 :: ts') none tdMaxUs
        (by simp [h1, h2])
      have hstep : scanClosestP now ((d :: rest).zip (t1 :: ts')) none tdMaxUs =
          scanClosestP now (rest.zip ts') (some d) (now - t1) := by
        show scanClosestP now ((d, t1) :: rest.zip ts') none tdMaxUs =
          scanClosestP now (rest.zip ts') (some d) (now - t1)
        simp only [scanClosestP]
        rw [if_neg hnb, if_pos habs1]
      have hmain := scanClosestP_eq_nearest now (rest.zip ts') d t1 t1
        hsort2 hgap2 hlo le_rfl le_rfl
      obtain ⟨q, hq⟩ := nearestScan_isSome now (rest.zip ts') (d, t1)
      refine ⟨q.1, q.2, ?_, ?_⟩
      · show nearestScan now ((d, t1) :: rest.zip ts') none = some (q.1, q.2)
        simp only [nearestScan]
        rw [hq]
      · have hscan : scanClosest strp now (d :: rest) none tdMaxUs = .ok (some q.1) := by
          rw [hbridge, hstep, hmain, hq]
          rfl
        simp only [get_current_info, hscan]

/-- C2 witness: two records 4 minutes apart, "now" 100 ms after the first:
the early-exit scan and the full scan both select the first record. -/
theorem get_current_info_eq_full_scan_witness :
    ∃ c tc, nearestScan 100000 ([svF, svG].zip [0, 240000000]) none = some (c, tc) ∧
      get_current_info strp0 100000 [svF, svG] =
        .ok (c, calculate_speed c.X_DOT c.Y_DOT c.Z_DOT) :=
  get_current_info_eq_full_scan strp0 100000 [svF, svG] [0, 240000000] 0 rfl
    (List.chain'_cons.mpr ⟨by norm_num, List.chain'_singleton _⟩)
    (List.chain'_cons.mpr ⟨by norm_num [tolUs], List.chain'_singleton _⟩)
    rfl (by norm_num [tolUs]) (by norm_num [tdMaxUs])

/-- C2 counterexample: a sorted one-record sequence whose epoch lies 10
minutes in the future of "now": the full scan returns that record, but
`get_current_info`'s early-exit breaks before selecting anything and the
subsequent `closest["X_DOT"]` subscript raises TypeError. -/
theorem get_current_info_break_counterexample :
    get_current_info strp0 (-600000000) [svF] = .error PyExn.typeError ∧
    nearestScan (-600000000) [(svF, 0)] none = some (svF, 0) := ⟨rfl, rfl⟩
